import Mathlib

/-!
Verification of the VolSync replication state machine and the Syncthing
configuration utilities.

Part 1 models the replication state-machine driver
(`controllers/statemachine`): the driver itself is specified by the design
document and exercised by `machine_test.go`; its operations are modelled
from the specification (trigger policy, deadline monitor, condition
reporter, single-step driver `run`).

Part 2 is a direct translation of `controllers/mover/syncthing/utils.go`
(`UpdateDevices`, `updateFolders`, `NeedsReconfigure`), with Go maps
rendered as insertion-ordered association lists and the partial index
`Addresses[0]` rendered as an `Option`.
-/

namespace VolSync

/-! ### Part 1: the replication state machine (modelled from the spec) -/

/-- Trigger type: none (continuous), manual (user token bump), or scheduled (cron). -/
inductive TriggerType
  | noTrigger
  | manualTrigger
  | scheduleTrigger
deriving DecidableEq, Repr

/-- The three logical states of the machine. -/
inductive MachineState
  | initialState
  | synchronizingState
  | cleaningUpState
deriving DecidableEq, Repr

/-- Reasons of the `Synchronizing` condition: a closed enum
{Syncing, CleaningUp, Manual, Scheduled, Error}. -/
inductive CondReason
  | reasonSync
  | reasonCleanup
  | reasonManual
  | reasonSched
  | reasonError
deriving DecidableEq, Repr

/-- One condition record: (status, reason, message, last-transition-time). -/
structure SyncCondition where
  status : Bool
  reason : CondReason
  message : String
  lastTransitionTime : Int
deriving DecidableEq, Repr

/-- A mover hook reports in-progress or complete. -/
inductive MoverStatus
  | inProgress
  | complete
deriving DecidableEq, Repr

/-- Result of one mover hook invocation: a tri-state
{in-progress, complete, error}, the error taking precedence. -/
structure MoverResult where
  status : MoverStatus
  err : Option String
deriving DecidableEq, Repr

/-- Modelled from the spec: the replication machine's persisted fields
(§3 data model), plus an explicit logical-state enum as permitted by the
design notes (§9, "Implementers may prefer an explicit enum"). -/
structure Machine where
  tt : TriggerType
  /-- manual trigger token (set by user) -/
  mt : String
  /-- last manual trigger token observed (last value acted upon) -/
  lmt : String
  /-- cron spec string -/
  cs : String
  lastSyncStartTime : Option Int
  lastSyncTime : Option Int
  nextSyncTime : Option Int
  /-- out-of-sync flag, mirrored to a metric -/
  oosync : Bool
  /-- the `Synchronizing` condition (absent on a brand-new machine) -/
  cond : Option SyncCondition
  state : MachineState
deriving DecidableEq, Repr

/-- Modelled from the spec: a parsed cron schedule (§6 collaborator
contract): `next t` is the first firing strictly greater than `t`. -/
structure Schedule where
  next : Int → Int
  next_gt : ∀ t : Int, t < next t

/-- Modelled from the spec: the external cron parser; `none` means the
expression is invalid. -/
def CronParser : Type := String → Option Schedule

/-- Per-tick external input: the current time and what each mover hook
returns when invoked on this tick. -/
structure Tick where
  now : Int
  syncResult : MoverResult
  cleanupResult : MoverResult

/-- A brand-new machine: no condition, no timestamps, in-sync. -/
def initialMachine (tt : TriggerType) (mt lmt cs : String) : Machine :=
  { tt := tt, mt := mt, lmt := lmt, cs := cs
    lastSyncStartTime := none, lastSyncTime := none, nextSyncTime := none
    oosync := false, cond := none, state := .initialState }

/-- Modelled from the spec: replace-by-type condition update;
`last-transition-time` is updated only when the status changes (§3
lifecycles); the message may update without a transition. -/
def setCondition (now : Int) (status : Bool) (reason : CondReason)
    (message : String) (old : Option SyncCondition) : SyncCondition :=
  match old with
  | none => ⟨status, reason, message, now⟩
  | some c =>
    if c.status = status then ⟨status, reason, message, c.lastTransitionTime⟩
    else ⟨status, reason, message, now⟩

/-- Modelled from the spec: trigger policy `shouldStartCycle` (§4.A):
none ⇒ always true; manual ⇒ token differs from last observed and is
non-empty; scheduled ⇒ parse the cron spec, `prev` is the last sync time
(or now if unset), true iff `now ≥ schedule.Next(prev)`. -/
def shouldStartCycle (p : CronParser) (now : Int) (m : Machine) :
    Except String Bool :=
  match m.tt with
  | .noTrigger => .ok true
  | .manualTrigger => .ok (decide (m.mt ≠ m.lmt ∧ m.mt ≠ ""))
  | .scheduleTrigger =>
    match p m.cs with
    | none => .error "invalid cronspec"
    | some sched => .ok (decide (sched.next (m.lastSyncTime.getD now) ≤ now))

/-- Modelled from the spec: trigger policy `nextDeadline` (§4.A): for
scheduled triggers the next firing after the last sync time (or after now
if unset); `none` for the other trigger types. -/
def nextDeadline (p : CronParser) (now : Int) (m : Machine) :
    Except String (Option Int) :=
  match m.tt with
  | .scheduleTrigger =>
    match p m.cs with
    | none => .error "invalid cronspec"
    | some sched => .ok (some (sched.next (m.lastSyncTime.getD now)))
  | _ => .ok none

/-- Modelled from the spec: the deadline monitor `missedDeadline` (§4.B):
false unless the trigger is scheduled; false when the last sync time is
unset; otherwise true iff `now > schedule.Next(schedule.Next(lastSyncTime))`,
surfacing cron parse errors. -/
def missedDeadline (p : CronParser) (now : Int) (m : Machine) :
    Except String Bool :=
  match m.tt with
  | .scheduleTrigger =>
    match m.lastSyncTime with
    | none => .ok false
    | some lst =>
      match p m.cs with
      | none => .error "invalid cronspec"
      | some sched => .ok (decide (sched.next (sched.next lst) < now))
  | _ => .ok false

/-- Modelled from the spec: `reasonForWaiting` (§4.A) classifies why the
machine is not synchronizing when the trigger gate is closed. -/
def reasonForWaiting (m : Machine) : CondReason :=
  match m.tt with
  | .manualTrigger => .reasonManual
  | .scheduleTrigger => .reasonSched
  | .noTrigger => .reasonSync

/-- Modelled from the spec: the action shared by every transition into
`Synchronizing` (§4.E): mark out-of-sync, record the last-start-time,
record the manual token as acted upon, publish `True/Syncing`. -/
def transitionToSynchronizing (now : Int) (m : Machine) : Machine :=
  { m with
    oosync := true
    lastSyncStartTime := some now
    lmt := if m.tt = .manualTrigger then m.mt else m.lmt
    cond := some (setCondition now true .reasonSync "Synchronization in-progress" m.cond)
    state := .synchronizingState }

/-- Modelled from the spec: the `Synchronizing → CleaningUp` action
(§4.E): set last-sync-time to now, clear out-of-sync, compute the
next-sync-time via `nextDeadline`, publish `False/CleaningUp`.  The
driver's cron guard makes the parse-error branch unreachable; it keeps
the previous next-sync-time. -/
def transitionToCleaningUp (p : CronParser) (now : Int) (m : Machine) : Machine :=
  let m1 := { m with lastSyncTime := some now, oosync := false }
  let nst := match nextDeadline p now m1 with
    | .ok v => v
    | .error _ => m1.nextSyncTime
  { m1 with
    nextSyncTime := nst
    cond := some (setCondition now false .reasonCleanup "Waiting for cleanup" m1.cond)
    state := .cleaningUpState }

/-- Modelled from the spec: one step of the transition table of §4.E,
before the deadline-monitor pass. -/
def runStep (p : CronParser) (t : Tick) (m : Machine) :
    Machine × Option String :=
  match m.state with
  | .initialState =>
    (transitionToSynchronizing t.now m, none)
  | .synchronizingState =>
    match t.syncResult.err with
    | some e =>
      ({ m with cond := some (setCondition t.now false .reasonError e m.cond) }, some e)
    | none =>
      match t.syncResult.status with
      | .inProgress =>
        ({ m with cond := some (setCondition t.now true .reasonSync
            "Synchronization in-progress" m.cond) }, none)
      | .complete => (transitionToCleaningUp p t.now m, none)
  | .cleaningUpState =>
    match t.cleanupResult.err with
    | some e =>
      ({ m with cond := some (setCondition t.now false .reasonError e m.cond) }, some e)
    | none =>
      match t.cleanupResult.status with
      | .inProgress =>
        ({ m with cond := some (setCondition t.now false .reasonCleanup
            "Waiting for cleanup" m.cond) }, none)
      | .complete =>
        match shouldStartCycle p t.now m with
        | .error e =>
          ({ m with cond := some (setCondition t.now false .reasonError e m.cond) }, some e)
        | .ok b =>
          if b then (transitionToSynchronizing t.now m, none)
          else
            ({ m with cond := some (setCondition t.now false (reasonForWaiting m)
                "Waiting to start" m.cond) }, none)

/-- Modelled from the spec: the driver entry point `Run` (§4.E).  The
initial leg never consults the cron spec (§8 scenario 6, §9).  On any
other leg a trigger-policy parse error publishes `False/Error`, surfaces
the error and leaves the state unchanged; otherwise the driver performs
one step of the transition table and then consults the deadline monitor
to update the out-of-sync flag (§4.E, §3 invariant 6). -/
def run (p : CronParser) (t : Tick) (m : Machine) : Machine × Option String :=
  match m.state with
  | .initialState => runStep p t m
  | _ =>
    if m.tt = .scheduleTrigger ∧ (p m.cs).isNone then
      ({ m with cond := some (setCondition t.now false .reasonError
          "invalid cronspec" m.cond) }, some "invalid cronspec")
    else
      let r := runStep p t m
      match missedDeadline p t.now r.1 with
      | .ok missed => ({ r.1 with oosync := r.1.oosync || missed }, r.2)
      | .error e =>
        ({ r.1 with cond := some (setCondition t.now false .reasonError e r.1.cond) },
          some e)

/-- Machines reachable from a brand-new machine by any sequence of `run`
calls (arbitrary tick inputs), with a fixed cron parser. -/
inductive Reachable (p : CronParser) : Machine → Prop
  | init (tt : TriggerType) (mt lmt cs : String) :
      Reachable p (initialMachine tt mt lmt cs)
  | step (m : Machine) (t : Tick) :
      Reachable p m → Reachable p (run p t m).1

/-- Status of the `Synchronizing` condition, false when absent
(mirrors `apimeta.IsStatusConditionTrue`). -/
def condStatusTrue (m : Machine) : Bool :=
  match m.cond with
  | some c => c.status
  | none => false

/-- Whether the `Synchronizing` condition is present with the given
reason (mirrors `apimeta.FindStatusCondition(...).Reason`). -/
def condReasonIs (m : Machine) (r : CondReason) : Bool :=
  match m.cond with
  | some c => decide (c.reason = r)
  | none => false

/-- A concrete schedule used in witnesses: fires at every multiple of 10. -/
def tenSched : Schedule :=
  ⟨fun t => 10 * (t / 10) + 10, by
    intro t
    show t < 10 * (t / 10) + 10
    omega⟩

/-- A concrete cron parser used in witnesses: accepts only the ten-unit
schedule. -/
def pWitness : CronParser :=
  fun s => if s = "*/10 * * * *" then some tenSched else none

/-- A tick on which both mover hooks are still in progress. -/
def tickInProgress (now : Int) : Tick :=
  ⟨now, ⟨.inProgress, none⟩, ⟨.inProgress, none⟩⟩

/-- A tick on which both mover hooks report complete. -/
def tickComplete (now : Int) : Tick :=
  ⟨now, ⟨.complete, none⟩, ⟨.complete, none⟩⟩

/-- A tick on which `Synchronize()` reports an error. -/
def tickSyncError (now : Int) : Tick :=
  ⟨now, ⟨.inProgress, some "sync error"⟩, ⟨.inProgress, none⟩⟩

/-- The machine after one continuous-trigger tick from a fresh machine. -/
def mRun1 : Machine :=
  (run pWitness (tickInProgress 1) (initialMachine .noTrigger "" "" "")).1

/-- The machine after a further tick on which the mover reports an
error while the sync cycle is in flight. -/
def machineC1 : Machine := (run pWitness (tickSyncError 2) mRun1).1

/-- A scheduled machine whose last sync was three periods ago. -/
def mLate : Machine :=
  { tt := .scheduleTrigger, mt := "", lmt := "", cs := "*/10 * * * *"
    lastSyncStartTime := none, lastSyncTime := some 69, nextSyncTime := some 80
    oosync := false, cond := some ⟨false, .reasonCleanup, "Waiting for cleanup", 69⟩
    state := .cleaningUpState }

/-- A continuous-trigger machine in the `Synchronizing` state. -/
def mSyncNT : Machine :=
  { tt := .noTrigger, mt := "", lmt := "", cs := ""
    lastSyncStartTime := some 1, lastSyncTime := none, nextSyncTime := none
    oosync := true, cond := some ⟨true, .reasonSync, "Synchronization in-progress", 1⟩
    state := .synchronizingState }

/-- A manual-trigger machine waiting in `CleaningUp` with equal tokens. -/
def mManualWait : Machine :=
  { tt := .manualTrigger, mt := "1", lmt := "1", cs := ""
    lastSyncStartTime := some 9, lastSyncTime := some 10, nextSyncTime := none
    oosync := false, cond := some ⟨false, .reasonCleanup, "Waiting for cleanup", 10⟩
    state := .cleaningUpState }

/-- A scheduled machine in `Synchronizing` with an unparseable cron spec. -/
def mBadCron : Machine :=
  { tt := .scheduleTrigger, mt := "", lmt := "", cs := "invalid"
    lastSyncStartTime := some 1, lastSyncTime := none, nextSyncTime := none
    oosync := true, cond := some ⟨true, .reasonSync, "Synchronization in-progress", 1⟩
    state := .synchronizingState }

/-! ### Part 2: Syncthing configuration utilities
(`controllers/mover/syncthing/utils.go`) -/

/-- `v1alpha1.SyncthingPeer`: fields used by `utils.go`. -/
structure SyncthingPeer where
  ID : String
  Address : String
  Introducer : Bool
deriving DecidableEq, Repr

/-- A folder's per-device sharing record. -/
structure FolderDeviceConfiguration where
  DeviceID : String
  IntroducedBy : String
deriving DecidableEq, Repr

/-- A configured Syncthing device: the fields `utils.go` reads or writes. -/
structure SyncthingDevice where
  DeviceID : String
  Addresses : List String
  Introducer : Bool
  IntroducedBy : String
  Name : String
deriving DecidableEq, Repr

/-- A Syncthing folder: its device-sharing list plus representative
other fields (which `updateFolders` must leave unchanged). -/
structure SyncthingFolder where
  ID : String
  Label : String
  Devices : List FolderDeviceConfiguration
deriving DecidableEq, Repr

structure SyncthingConfig where
  Devices : List SyncthingDevice
  Folders : List SyncthingFolder
deriving DecidableEq, Repr

structure SystemStatus where
  MyID : String
deriving DecidableEq, Repr

/-- The part of the `Syncthing` object that `UpdateDevices` and
`NeedsReconfigure` touch (logger and API state are irrelevant here). -/
structure Syncthing where
  Config : SyncthingConfig
  SystemStatus : SystemStatus
deriving DecidableEq, Repr

/-- A Go `map[string]α` as an association list with insert-overwrite;
`NeedsReconfigure` only ever asks for key membership, so the (in Go,
unspecified) iteration order is irrelevant to its result. -/
abbrev GoMap (α : Type) : Type := List (String × α)

/-- Insert, overwriting the entry with an equal key if present. -/
def mapInsert {α : Type} (m : GoMap α) (k : String) (v : α) : GoMap α :=
  match m with
  | [] => [(k, v)]
  | (k', v') :: rest =>
    if k' = k then (k, v) :: rest else (k', v') :: mapInsert rest k v

/-- Key membership (`_, ok := m[k]` in Go). -/
def mapContains {α : Type} (m : GoMap α) (k : String) : Bool :=
  m.any (fun kv => kv.1 = k)

/-- `updateFolders` (utils.go:52-69): rebuild every folder's device list
to share it with every configured device, copying `DeviceID` and
`IntroducedBy`; everything else about the folder is kept. -/
def updateFolders (st : Syncthing) : Syncthing :=
  let newFolders := st.Config.Folders.foldl
    (fun acc folder =>
      acc ++ [{ folder with
        Devices := st.Config.Devices.foldl
          (fun dacc device =>
            dacc ++ [{ DeviceID := device.DeviceID,
                       IntroducedBy := device.IntroducedBy }]) [] }]) []
  { st with Config := { st.Config with Folders := newFolders } }

/-- `UpdateDevices` (utils.go:20-49): keep the configured devices that
are the self device or were introduced, append one device per element of
`peerList` (with a singleton address list and zero values for
`IntroducedBy` and `Name`), then update the folders. -/
def UpdateDevices (st : Syncthing) (peerList : List SyncthingPeer) : Syncthing :=
  let kept := st.Config.Devices.foldl
    (fun acc device =>
      if device.DeviceID = st.SystemStatus.MyID ∨ device.IntroducedBy ≠ ""
      then acc ++ [device] else acc) []
  let newDevices := peerList.foldl
    (fun acc device =>
      acc ++ [{ DeviceID := device.ID, Addresses := [device.Address],
                Introducer := device.Introducer, IntroducedBy := "",
                Name := "" }]) kept
  updateFolders { st with Config := { st.Config with Devices := newDevices } }

/-- `NeedsReconfigure` (utils.go:72-124): build the map of desired
devices (self plus the non-self entries of `nodeList`) and the map of
currently configured devices (self plus the non-self, non-introduced
configured devices, valued at their first address), and report whether
either key set has a member the other lacks.  The Go code indexes
`device.Addresses[0]` unconditionally; a device reaching that index with
an empty address list makes the Go function panic, modelled as `none`. -/
def NeedsReconfigure (st : Syncthing) (nodeList : List SyncthingPeer) :
    Option Bool := do
  let newDevices : GoMap SyncthingPeer :=
    nodeList.foldl
      (fun acc device =>
        if device.ID = st.SystemStatus.MyID then acc
        else mapInsert acc device.ID device)
      [(st.SystemStatus.MyID,
        { ID := st.SystemStatus.MyID, Address := "", Introducer := false })]
  let currentDevs : GoMap SyncthingPeer ←
    st.Config.Devices.foldlM
      (fun acc device =>
        if device.DeviceID = st.SystemStatus.MyID ∨ device.IntroducedBy ≠ ""
        then pure acc
        else do
          let addr ← device.Addresses.head?
          pure (mapInsert acc device.DeviceID
            { ID := device.DeviceID, Address := addr, Introducer := false }))
      [(st.SystemStatus.MyID,
        { ID := st.SystemStatus.MyID, Address := "", Introducer := false })]
  if newDevices.any (fun kv => ¬ mapContains currentDevs kv.2.ID) then
    pure true
  else if currentDevs.any (fun kv => ¬ mapContains newDevices kv.2.ID) then
    pure true
  else
    pure false

/-- The map of currently configured devices that `NeedsReconfigure`
builds, as a total function (first address read with a default); it
agrees with the fallible fold whenever `AddressesWF` holds. -/
def currentFold (st : Syncthing) : GoMap SyncthingPeer :=
  st.Config.Devices.foldl
    (fun acc device =>
      if device.DeviceID = st.SystemStatus.MyID ∨ device.IntroducedBy ≠ ""
      then acc
      else mapInsert acc device.DeviceID
        { ID := device.DeviceID, Address := device.Addresses.headD "",
          Introducer := false })
    [(st.SystemStatus.MyID,
      { ID := st.SystemStatus.MyID, Address := "", Introducer := false })]

/-- The map of desired devices that `NeedsReconfigure` builds. -/
def newFold (st : Syncthing) (nodeList : List SyncthingPeer) :
    GoMap SyncthingPeer :=
  nodeList.foldl
    (fun acc device =>
      if device.ID = st.SystemStatus.MyID then acc
      else mapInsert acc device.ID device)
    [(st.SystemStatus.MyID,
      { ID := st.SystemStatus.MyID, Address := "", Introducer := false })]

/-- The configured devices that `UpdateDevices` keeps: the self device
and the introduced devices. -/
def keepDevices (st : Syncthing) : List SyncthingDevice :=
  st.Config.Devices.filter
    (fun d => decide (d.DeviceID = st.SystemStatus.MyID ∨ d.IntroducedBy ≠ ""))

/-- The device entry `UpdateDevices` builds from one peer. -/
def peerToDevice (p : SyncthingPeer) : SyncthingDevice :=
  { DeviceID := p.ID, Addresses := [p.Address], Introducer := p.Introducer,
    IntroducedBy := "", Name := "" }

/-- The folder-sharing record built from one configured device. -/
def devToFolderDev (d : SyncthingDevice) : FolderDeviceConfiguration :=
  { DeviceID := d.DeviceID, IntroducedBy := d.IntroducedBy }

/-- The IDs `NeedsReconfigure` derives from the node list: every entry
except the self device. -/
def nodeIDs (st : Syncthing) (nodeList : List SyncthingPeer) : List String :=
  (nodeList.filter (fun d => decide (d.ID ≠ st.SystemStatus.MyID))).map
    (fun d => d.ID)

/-- The IDs of the configured devices that are neither the self device
nor introduced. -/
def configIDs (st : Syncthing) : List String :=
  (st.Config.Devices.filter
    (fun d => decide (¬(d.DeviceID = st.SystemStatus.MyID ∨ d.IntroducedBy ≠ "")))).map
    (fun d => d.DeviceID)

/-- Well-formedness precondition for `NeedsReconfigure`: every
configured device that is neither the self device nor introduced has at
least one address. -/
def AddressesWF (st : Syncthing) : Prop :=
  ∀ d ∈ st.Config.Devices,
    ¬(d.DeviceID = st.SystemStatus.MyID ∨ d.IntroducedBy ≠ "") → d.Addresses ≠ []

/-- An instance violating `AddressesWF`: devices `self` and `E`, where
`E` is neither self nor introduced and has no addresses. -/
def stBadAddr : Syncthing :=
  { Config :=
    { Devices :=
        [{ DeviceID := "self", Addresses := ["a0"], Introducer := false,
           IntroducedBy := "", Name := "" },
         { DeviceID := "E", Addresses := [], Introducer := false,
           IntroducedBy := "", Name := "" }]
      Folders := [] }
    SystemStatus := { MyID := "self" } }

/-- A well-formed instance used to witness the `NeedsReconfigure`
theorems: self plus one peer device `A`, and one introduced device. -/
def stWitness : Syncthing :=
  { Config :=
    { Devices :=
        [{ DeviceID := "self", Addresses := ["a0"], Introducer := false,
           IntroducedBy := "", Name := "" },
         { DeviceID := "A", Addresses := ["addrA"], Introducer := false,
           IntroducedBy := "", Name := "" },
         { DeviceID := "I", Addresses := [], Introducer := false,
           IntroducedBy := "byX", Name := "" }]
      Folders := [] }
    SystemStatus := { MyID := "self" } }

/-- Witness node list: the peer `A` with a changed address. -/
def nlWitness : List SyncthingPeer :=
  [{ ID := "A", Address := "elsewhere", Introducer := true }]

/-! ### Theorems -/

/-- A Go accumulate-if loop is a filter. -/
theorem foldl_ite_append {α : Type} (p : α → Bool) (l : List α) (acc : List α) :
    l.foldl (fun a x => if p x then a ++ [x] else a) acc = acc ++ l.filter p := by
  induction l generalizing acc with
  | nil => simp
  | cons y ys ih =>
    by_cases h : p y <;> simp [List.foldl_cons, List.filter_cons, h, ih]

/-- A Go accumulate loop is a map. -/
theorem foldl_append_map {α β : Type} (f : α → β) (l : List α) (acc : List β) :
    l.foldl (fun a x => a ++ [f x]) acc = acc ++ l.map f := by
  induction l generalizing acc with
  | nil => simp
  | cons y ys ih => simp [List.foldl_cons, ih]

/-- `updateFolders` rebuilds every folder's device list from the
configured devices and touches nothing else. -/
theorem updateFolders_eq (devs : List SyncthingDevice)
    (folders : List SyncthingFolder) (ss : SystemStatus) :
    updateFolders ⟨⟨devs, folders⟩, ss⟩ =
      ⟨⟨devs, folders.map (fun f =>
          { f with Devices := devs.map devToFolderDev })⟩, ss⟩ := by
  have hinner : ∀ ds : List SyncthingDevice,
      ds.foldl (fun dacc device =>
        dacc ++ [{ DeviceID := device.DeviceID,
                   IntroducedBy := device.IntroducedBy }]) [] =
        ds.map devToFolderDev := fun ds => by
    simpa [devToFolderDev] using foldl_append_map devToFolderDev ds []
  simp only [updateFolders, hinner]
  simpa using congrArg (fun l => (⟨⟨devs, l⟩, ss⟩ : Syncthing))
    (foldl_append_map
      (fun folder : SyncthingFolder =>
        { folder with Devices := devs.map devToFolderDev }) folders [])

/-- C10: `UpdateDevices(peerList)` leaves `Config.Devices` equal to the
kept devices (self or introduced, in their original order) followed by
one entry per peer, and rebuilds every folder's device list as exactly
one record per new device, in the same order, copying `DeviceID` and
`IntroducedBy`; the other folder fields are unchanged. -/
theorem updateDevices_spec (st : Syncthing) (peerList : List SyncthingPeer) :
    (UpdateDevices st peerList).Config.Devices =
      keepDevices st ++ peerList.map peerToDevice ∧
    (UpdateDevices st peerList).Config.Folders =
      st.Config.Folders.map (fun f =>
        { f with Devices :=
            (keepDevices st ++ peerList.map peerToDevice).map devToFolderDev }) ∧
    (UpdateDevices st peerList).SystemStatus = st.SystemStatus := by
  obtain ⟨⟨devs, folders⟩, ⟨myid⟩⟩ := st
  have hkept :
      devs.foldl
        (fun acc device =>
          if device.DeviceID = myid ∨ device.IntroducedBy ≠ ""
          then acc ++ [device] else acc) [] =
        keepDevices ⟨⟨devs, folders⟩, ⟨myid⟩⟩ := by
    simpa [keepDevices] using foldl_ite_append
      (fun d : SyncthingDevice =>
        decide (d.DeviceID = myid ∨ d.IntroducedBy ≠ "")) devs []
  have hpeers : ∀ acc : List SyncthingDevice,
      peerList.foldl (fun acc device =>
        acc ++ [{ DeviceID := device.ID, Addresses := [device.Address],
                  Introducer := device.Introducer, IntroducedBy := "",
                  Name := "" }]) acc =
        acc ++ peerList.map peerToDevice := fun acc => by
    simpa [peerToDevice] using foldl_append_map peerToDevice peerList acc
  simp only [UpdateDevices, hkept, hpeers, updateFolders_eq]
  exact ⟨trivial, trivial, trivial⟩

/-- Key membership after a cons. -/
theorem mapContains_cons {α : Type} (k0 : String) (v0 : α)
    (tl : GoMap α) (k : String) :
    mapContains ((k0, v0) :: tl) k = true ↔
      k0 = k ∨ mapContains tl k = true := by
  simp [mapContains]

/-- Key membership after an insert. -/
theorem mapContains_insert {α : Type} (m : GoMap α) (k k' : String) (v : α) :
    mapContains (mapInsert m k v) k' = true ↔
      k' = k ∨ mapContains m k' = true := by
  induction m with
  | nil => simp [mapInsert, mapContains, eq_comm]
  | cons hd tl ih =>
    obtain ⟨k0, v0⟩ := hd
    by_cases h : k0 = k
    · subst h
      rw [show mapInsert ((k0, v0) :: tl) k0 v = (k0, v) :: tl from by
        simp [mapInsert]]
      rw [mapContains_cons, mapContains_cons]
      constructor
      · rintro (hx | hx)
        · exact Or.inl hx.symm
        · exact Or.inr (Or.inr hx)
      · rintro (hx | hx | hx)
        · exact Or.inl hx.symm
        · exact Or.inl hx
        · exact Or.inr hx
    · rw [show mapInsert ((k0, v0) :: tl) k v = (k0, v0) :: mapInsert tl k v
        from by simp [mapInsert, h]]
      rw [mapContains_cons, ih, mapContains_cons]
      tauto

/-- Key membership in a one-entry map. -/
theorem mapContains_singleton {α : Type} (k0 k : String) (v0 : α) :
    mapContains [(k0, v0)] k = true ↔ k0 = k := by
  simp [mapContains]

/-- `nodeIDs` membership, unfolded. -/
theorem mem_nodeIDs (st : Syncthing) (nodeList : List SyncthingPeer)
    (k : String) :
    k ∈ nodeIDs st nodeList ↔
      ∃ d ∈ nodeList, d.ID ≠ st.SystemStatus.MyID ∧ d.ID = k := by
  simp only [nodeIDs, List.mem_map, List.mem_filter, decide_eq_true_eq]
  tauto

/-- `configIDs` membership, unfolded. -/
theorem mem_configIDs (st : Syncthing) (k : String) :
    k ∈ configIDs st ↔
      ∃ d ∈ st.Config.Devices,
        ¬(d.DeviceID = st.SystemStatus.MyID ∨ d.IntroducedBy ≠ "") ∧
        d.DeviceID = k := by
  simp only [configIDs, List.mem_map, List.mem_filter, decide_eq_true_eq,
    not_or]
  tauto

/-- The desired-device map contains exactly the self ID and the non-self
node-list IDs. -/
theorem newFold_contains (st : Syncthing) (nodeList : List SyncthingPeer)
    (k : String) :
    mapContains (newFold st nodeList) k = true ↔
      k = st.SystemStatus.MyID ∨ k ∈ nodeIDs st nodeList := by
  have main : ∀ (l : List SyncthingPeer) (acc : GoMap SyncthingPeer),
      mapContains
        (l.foldl (fun acc device =>
          if device.ID = st.SystemStatus.MyID then acc
          else mapInsert acc device.ID device) acc) k = true ↔
        mapContains acc k = true ∨
          ∃ d ∈ l, d.ID ≠ st.SystemStatus.MyID ∧ d.ID = k := by
    intro l
    induction l with
    | nil => simp
    | cons d ds ih =>
      intro acc
      by_cases h : d.ID = st.SystemStatus.MyID
      · rw [List.foldl_cons, if_pos h, ih]
        constructor
        · rintro (hx | ⟨d0, hd0, hne, hk⟩)
          · exact Or.inl hx
          · exact Or.inr ⟨d0, List.mem_cons_of_mem _ hd0, hne, hk⟩
        · rintro (hx | ⟨d0, hd0, hne, hk⟩)
          · exact Or.inl hx
          · rcases List.mem_cons.mp hd0 with rfl | hd0
            · exact absurd h hne
            · exact Or.inr ⟨d0, hd0, hne, hk⟩
      · rw [List.foldl_cons, if_neg h, ih]
        constructor
        · rintro (hx | ⟨d0, hd0, hne, hk⟩)
          · rcases (mapContains_insert acc d.ID k d).mp hx with hx | hx
            · exact Or.inr ⟨d, List.mem_cons_self _ _, h, hx.symm⟩
            · exact Or.inl hx
          · exact Or.inr ⟨d0, List.mem_cons_of_mem _ hd0, hne, hk⟩
        · rintro (hx | ⟨d0, hd0, hne, hk⟩)
          · exact Or.inl ((mapContains_insert acc d.ID k d).mpr (Or.inr hx))
          · rcases List.mem_cons.mp hd0 with rfl | hd0
            · exact Or.inl
                ((mapContains_insert acc d0.ID k d0).mpr (Or.inl hk.symm))
            · exact Or.inr ⟨d0, hd0, hne, hk⟩
  rw [newFold, main, mapContains_singleton, mem_nodeIDs]
  constructor
  · rintro (hx | hx)
    · exact Or.inl hx.symm
    · exact Or.inr hx
  · rintro (hx | hx)
    · exact Or.inl hx.symm
    · exact Or.inr hx

/-- The configured-device map contains exactly the self ID and the IDs
of the non-self, non-introduced configured devices. -/
theorem currentFold_contains (st : Syncthing) (k : String) :
    mapContains (currentFold st) k = true ↔
      k = st.SystemStatus.MyID ∨ k ∈ configIDs st := by
  have main : ∀ (l : List SyncthingDevice) (acc : GoMap SyncthingPeer),
      mapContains
        (l.foldl (fun acc device =>
          if device.DeviceID = st.SystemStatus.MyID ∨ device.IntroducedBy ≠ ""
          then acc
          else mapInsert acc device.DeviceID
            { ID := device.DeviceID, Address := device.Addresses.headD "",
              Introducer := false }) acc) k = true ↔
        mapContains acc k = true ∨
          ∃ d ∈ l, ¬(d.DeviceID = st.SystemStatus.MyID ∨ d.IntroducedBy ≠ "") ∧
            d.DeviceID = k := by
    intro l
    induction l with
    | nil => simp
    | cons d ds ih =>
      intro acc
      by_cases h : d.DeviceID = st.SystemStatus.MyID ∨ d.IntroducedBy ≠ ""
      · rw [List.foldl_cons, if_pos h, ih]
        constructor
        · rintro (hx | ⟨d0, hd0, hne, hk⟩)
          · exact Or.inl hx
          · exact Or.inr ⟨d0, List.mem_cons_of_mem _ hd0, hne, hk⟩
        · rintro (hx | ⟨d0, hd0, hne, hk⟩)
          · exact Or.inl hx
          · rcases List.mem_cons.mp hd0 with rfl | hd0
            · exact absurd h hne
            · exact Or.inr ⟨d0, hd0, hne, hk⟩
      · rw [List.foldl_cons, if_neg h, ih]
        constructor
        · rintro (hx | ⟨d0, hd0, hne, hk⟩)
          · rcases (mapContains_insert acc d.DeviceID k _).mp hx with hx | hx
            · exact Or.inr ⟨d, List.mem_cons_self _ _, h, hx.symm⟩
            · exact Or.inl hx
          · exact Or.inr ⟨d0, List.mem_cons_of_mem _ hd0, hne, hk⟩
        · rintro (hx | ⟨d0, hd0, hne, hk⟩)
          · exact Or.inl ((mapContains_insert acc d.DeviceID k _).mpr
              (Or.inr hx))
          · rcases List.mem_cons.mp hd0 with rfl | hd0
            · exact Or.inl ((mapContains_insert acc d0.DeviceID k _).mpr
                (Or.inl hk.symm))
            · exact Or.inr ⟨d0, hd0, hne, hk⟩
  rw [currentFold, main, mapContains_singleton, mem_configIDs]
  constructor
  · rintro (hx | hx)
    · exact Or.inl hx.symm
    · exact Or.inr hx
  · rintro (hx | hx)
    · exact Or.inl hx.symm
    · exact Or.inr hx


/-- Key membership restated as an existential over entries. -/
theorem mapContains_true_iff {α : Type} (m : GoMap α) (k : String) :
    mapContains m k = true ↔ ∃ kv ∈ m, kv.1 = k := by
  simp [mapContains]

/-- `mapInsert` preserves an entry invariant. -/
theorem mapInsert_forall {α : Type} (P : String × α → Prop) (m : GoMap α)
    (k : String) (v : α) (hm : ∀ kv ∈ m, P kv) (hv : P (k, v)) :
    ∀ kv ∈ mapInsert m k v, P kv := by
  induction m with
  | nil =>
    intro kv hkv
    simp only [mapInsert, List.mem_singleton] at hkv
    exact hkv ▸ hv
  | cons hd tl ih =>
    obtain ⟨k0, v0⟩ := hd
    intro kv hkv
    by_cases h : k0 = k
    · rw [show mapInsert ((k0, v0) :: tl) k v = (k, v) :: tl from by
        simp [mapInsert, h]] at hkv
      rcases List.mem_cons.mp hkv with rfl | hkv
      · exact hv
      · exact hm kv (List.mem_cons_of_mem _ hkv)
    · rw [show mapInsert ((k0, v0) :: tl) k v = (k0, v0) :: mapInsert tl k v
        from by simp [mapInsert, h]] at hkv
      rcases List.mem_cons.mp hkv with rfl | hkv
      · exact hm _ (List.mem_cons_self _ _)
      · exact ih (fun kv h0 => hm kv (List.mem_cons_of_mem _ h0)) kv hkv

/-- Every entry of the desired-device map has its key as its ID. -/
theorem newFold_idkey (st : Syncthing) (nodeList : List SyncthingPeer) :
    ∀ kv ∈ newFold st nodeList, kv.2.ID = kv.1 := by
  have main : ∀ (l : List SyncthingPeer) (acc : GoMap SyncthingPeer),
      (∀ kv ∈ acc, kv.2.ID = kv.1) →
      ∀ kv ∈ (l.foldl (fun acc device =>
        if device.ID = st.SystemStatus.MyID then acc
        else mapInsert acc device.ID device) acc), kv.2.ID = kv.1 := by
    intro l
    induction l with
    | nil => intro acc hacc; simpa using hacc
    | cons d ds ih =>
      intro acc hacc
      rw [List.foldl_cons]
      by_cases h : d.ID = st.SystemStatus.MyID
      · rw [if_pos h]; exact ih acc hacc
      · rw [if_neg h]
        exact ih _ (mapInsert_forall _ acc d.ID d hacc rfl)
  exact main nodeList _ (by simp)

/-- Every entry of the configured-device map has its key as its ID. -/
theorem currentFold_idkey (st : Syncthing) :
    ∀ kv ∈ currentFold st, kv.2.ID = kv.1 := by
  have main : ∀ (l : List SyncthingDevice) (acc : GoMap SyncthingPeer),
      (∀ kv ∈ acc, kv.2.ID = kv.1) →
      ∀ kv ∈ (l.foldl (fun acc device =>
        if device.DeviceID = st.SystemStatus.MyID ∨ device.IntroducedBy ≠ ""
        then acc
        else mapInsert acc device.DeviceID
          { ID := device.DeviceID, Address := device.Addresses.headD "",
            Introducer := false }) acc), kv.2.ID = kv.1 := by
    intro l
    induction l with
    | nil => intro acc hacc; simpa using hacc
    | cons d ds ih =>
      intro acc hacc
      rw [List.foldl_cons]
      by_cases h : d.DeviceID = st.SystemStatus.MyID ∨ d.IntroducedBy ≠ ""
      · rw [if_pos h]; exact ih acc hacc
      · rw [if_neg h]
        exact ih _ (mapInsert_forall _ acc d.DeviceID _ hacc rfl)
  exact main st.Config.Devices _ (by simp)

/-- Under `AddressesWF`, the fallible device fold of `NeedsReconfigure`
succeeds and computes `currentFold`. -/
theorem foldlM_addresses (myid : String) :
    ∀ (l : List SyncthingDevice) (acc : GoMap SyncthingPeer),
      (∀ d ∈ l, ¬(d.DeviceID = myid ∨ d.IntroducedBy ≠ "") → d.Addresses ≠ []) →
      l.foldlM (fun acc device =>
        if device.DeviceID = myid ∨ device.IntroducedBy ≠ ""
        then pure acc
        else do
          let addr ← device.Addresses.head?
          pure (mapInsert acc device.DeviceID
            { ID := device.DeviceID, Address := addr, Introducer := false })) acc
      = some (l.foldl (fun acc device =>
          if device.DeviceID = myid ∨ device.IntroducedBy ≠ ""
          then acc
          else mapInsert acc device.DeviceID
            { ID := device.DeviceID, Address := device.Addresses.headD "",
              Introducer := false }) acc) := by
  intro l
  induction l with
  | nil => intro acc _; rfl
  | cons d ds ih =>
    intro acc hwf
    rw [List.foldlM_cons, List.foldl_cons]
    by_cases h : d.DeviceID = myid ∨ d.IntroducedBy ≠ ""
    · rw [if_pos h, if_pos h]
      exact ih acc (fun d0 h0 => hwf d0 (List.mem_cons_of_mem _ h0))
    · rw [if_neg h, if_neg h]
      have hne := hwf d (List.mem_cons_self _ _) h
      cases haddr : d.Addresses with
      | nil => exact absurd haddr hne
      | cons a as =>
        simp only [haddr, List.head?_cons, List.headD_cons, Option.bind_eq_bind,
          Option.some_bind, pure]
        exact ih _ (fun d0 h0 => hwf d0 (List.mem_cons_of_mem _ h0))


theorem needsReconfigure_unfold (st : Syncthing) (nodeList : List SyncthingPeer)
    (hwf : AddressesWF st) :
    NeedsReconfigure st nodeList =
      (if (newFold st nodeList).any
            (fun kv => ¬ mapContains (currentFold st) kv.2.ID) then some true
       else if (currentFold st).any
            (fun kv => ¬ mapContains (newFold st nodeList) kv.2.ID) then some true
       else some false) := by
  have hM := foldlM_addresses st.SystemStatus.MyID st.Config.Devices
    [(st.SystemStatus.MyID,
      { ID := st.SystemStatus.MyID, Address := "", Introducer := false })] hwf
  unfold NeedsReconfigure
  rw [hM]
  rfl


theorem needsReconfigure_spec (st : Syncthing) (nodeList : List SyncthingPeer)
    (hwf : AddressesWF st) :
    ∃ b, NeedsReconfigure st nodeList = some b ∧
      (b = false ↔ ∀ x, x ∈ nodeIDs st nodeList ↔ x ∈ configIDs st) := by
  rw [needsReconfigure_unfold st nodeList hwf]
  by_cases h1 : (newFold st nodeList).any
      (fun kv => ¬ mapContains (currentFold st) kv.2.ID)
  · refine ⟨true, by rw [if_pos h1], iff_of_false (by simp) ?_⟩
    rw [List.any_eq_true] at h1
    obtain ⟨kv, hm, hk⟩ := h1
    have hid := newFold_idkey st nodeList kv hm
    have hnotcur : ¬ mapContains (currentFold st) kv.1 = true := by
      rw [← hid]; exact of_decide_eq_true hk
    have hin : mapContains (newFold st nodeList) kv.1 = true :=
      (mapContains_true_iff _ _).mpr ⟨kv, hm, rfl⟩
    rcases (newFold_contains st nodeList kv.1).mp hin with hmy | hA
    · exact absurd ((currentFold_contains st kv.1).mpr (Or.inl hmy)) hnotcur
    · intro hP
      have hB := (hP kv.1).mp hA
      exact hnotcur ((currentFold_contains st kv.1).mpr (Or.inr hB))
  · by_cases h2 : (currentFold st).any
        (fun kv => ¬ mapContains (newFold st nodeList) kv.2.ID)
    · refine ⟨true, by rw [if_neg h1, if_pos h2], iff_of_false (by simp) ?_⟩
      rw [List.any_eq_true] at h2
      obtain ⟨kv, hm, hk⟩ := h2
      have hid := currentFold_idkey st kv hm
      have hnotnew : ¬ mapContains (newFold st nodeList) kv.1 = true := by
        rw [← hid]; exact of_decide_eq_true hk
      have hin : mapContains (currentFold st) kv.1 = true :=
        (mapContains_true_iff _ _).mpr ⟨kv, hm, rfl⟩
      rcases (currentFold_contains st kv.1).mp hin with hmy | hB
      · exact absurd ((newFold_contains st nodeList kv.1).mpr (Or.inl hmy))
          hnotnew
      · intro hP
        have hA := (hP kv.1).mpr hB
        exact hnotnew ((newFold_contains st nodeList kv.1).mpr (Or.inr hA))
    · refine ⟨false, by rw [if_neg h1, if_neg h2], iff_of_true rfl ?_⟩
      intro x
      constructor
      · intro hxA
        have hxnew : mapContains (newFold st nodeList) x = true :=
          (newFold_contains st nodeList x).mpr (Or.inr hxA)
        have hxne : x ≠ st.SystemStatus.MyID := by
          rw [mem_nodeIDs] at hxA
          obtain ⟨d, _, hne, hdx⟩ := hxA
          exact hdx ▸ hne
        have hcur : mapContains (currentFold st) x = true := by
          by_contra hnc
          apply h1
          rw [List.any_eq_true]
          obtain ⟨kv, hm, hk1⟩ := (mapContains_true_iff _ _).mp hxnew
          refine ⟨kv, hm, decide_eq_true ?_⟩
          rw [newFold_idkey st nodeList kv hm, hk1]
          exact hnc
        rcases (currentFold_contains st x).mp hcur with hmy | hB
        · exact absurd hmy hxne
        · exact hB
      · intro hxB
        have hxcur : mapContains (currentFold st) x = true :=
          (currentFold_contains st x).mpr (Or.inr hxB)
        have hxne : x ≠ st.SystemStatus.MyID := by
          rw [mem_configIDs] at hxB
          obtain ⟨d, _, hnot, hdx⟩ := hxB
          exact hdx ▸ fun hh => hnot (Or.inl hh)
        have hnew : mapContains (newFold st nodeList) x = true := by
          by_contra hnc
          apply h2
          rw [List.any_eq_true]
          obtain ⟨kv, hm, hk1⟩ := (mapContains_true_iff _ _).mp hxcur
          refine ⟨kv, hm, decide_eq_true ?_⟩
          rw [currentFold_idkey st kv hm, hk1]
          exact hnc
        rcases (newFold_contains st nodeList x).mp hnew with hmy | hA
        · exact absurd hmy hxne
        · exact hA


/-- C8: under `AddressesWF`, `NeedsReconfigure(nodeList)` returns false
iff the set of non-self node-list IDs equals the set of IDs of the
non-self, non-introduced configured devices; consequently the result
depends only on those two ID sets, so changing only addresses,
introducer flags or list order never changes it. -/
theorem needsReconfigure_ids (st : Syncthing) (nodeList : List SyncthingPeer)
    (hwf : AddressesWF st) :
    (NeedsReconfigure st nodeList = some false ↔
      (∀ x, x ∈ nodeIDs st nodeList ↔ x ∈ configIDs st)) ∧
    (∀ (st2 : Syncthing) (nodeList2 : List SyncthingPeer), AddressesWF st2 →
      (∀ x, x ∈ nodeIDs st2 nodeList2 ↔ x ∈ nodeIDs st nodeList) →
      (∀ x, x ∈ configIDs st2 ↔ x ∈ configIDs st) →
      NeedsReconfigure st2 nodeList2 = NeedsReconfigure st nodeList) := by
  obtain ⟨b, hb, hiff⟩ := needsReconfigure_spec st nodeList hwf
  constructor
  · rw [hb]
    simp only [Option.some.injEq]
    exact hiff
  · intro st2 nl2 hwf2 hA hB
    obtain ⟨b2, hb2, hiff2⟩ := needsReconfigure_spec st2 nl2 hwf2
    rw [hb, hb2]
    have hPP : (∀ x, x ∈ nodeIDs st2 nl2 ↔ x ∈ configIDs st2) ↔
        (∀ x, x ∈ nodeIDs st nodeList ↔ x ∈ configIDs st) := by
      constructor
      · intro h x
        exact ((hA x).symm.trans (h x)).trans (hB x)
      · intro h x
        exact ((hA x).trans (h x)).trans (hB x).symm
    have hb2b : b2 = b := by
      rw [hPP] at hiff2
      cases b <;> cases b2 <;> simp_all
    rw [hb2b]

/-- C8 witness: a concrete well-formed instance, at which the node list
`[A]` matches the configured non-self, non-introduced devices. -/
theorem needsReconfigure_ids_witness :
    AddressesWF stWitness ∧
    (NeedsReconfigure stWitness nlWitness = some false ↔
      (∀ x, x ∈ nodeIDs stWitness nlWitness ↔ x ∈ configIDs stWitness)) :=
  ⟨by unfold AddressesWF stWitness; decide, (needsReconfigure_ids stWitness nlWitness (by unfold AddressesWF stWitness; decide)).1⟩

/-- C9: `NeedsReconfigure` is total on instances where every non-self,
non-introduced configured device has at least one address, and on a
concrete input violating that precondition it reaches the out-of-bounds
index of `Addresses[0]` (modelled as `none`). -/
theorem needsReconfigure_total_or_panic :
    (∀ (st : Syncthing) (nodeList : List SyncthingPeer), AddressesWF st →
      (NeedsReconfigure st nodeList).isSome = true) ∧
    NeedsReconfigure stBadAddr [] = none := by
  constructor
  · intro st nl hwf
    obtain ⟨b, hb, _⟩ := needsReconfigure_spec st nl hwf
    rw [hb]
    rfl
  · rfl

/-- C9 witness: the totality conjunct applied at a concrete instance. -/
theorem needsReconfigure_total_witness :
    AddressesWF stWitness ∧ (NeedsReconfigure stWitness []).isSome = true :=
  ⟨by unfold AddressesWF stWitness; decide, needsReconfigure_total_or_panic.1 stWitness [] (by unfold AddressesWF stWitness; decide)⟩


@[simp]
theorem setCondition_status (now : Int) (s : Bool) (r : CondReason)
    (msg : String) (c : Option SyncCondition) :
    (setCondition now s r msg c).status = s := by
  cases c with
  | none => rfl
  | some c0 =>
    simp only [setCondition]
    split <;> rfl

@[simp]
theorem setCondition_reason (now : Int) (s : Bool) (r : CondReason)
    (msg : String) (c : Option SyncCondition) :
    (setCondition now s r msg c).reason = r := by
  cases c with
  | none => rfl
  | some c0 =>
    simp only [setCondition]
    split <;> rfl

@[simp]
theorem setCondition_setCondition (n1 n2 : Int) (s : Bool) (r : CondReason)
    (msg : String) (c : Option SyncCondition) :
    setCondition n2 s r msg (some (setCondition n1 s r msg c)) =
      setCondition n1 s r msg c := by
  cases c with
  | none => simp [setCondition]
  | some c0 =>
    unfold setCondition
    by_cases h : c0.status = s <;> simp [h]

@[simp]
theorem or_or_self (a b : Bool) : (a || b || b) = (a || b) := by
  cases a <;> cases b <;> rfl

/-- C2: for a scheduled trigger with a parseable cron spec and a set
last sync time, `missedDeadline` is true exactly when
`now > schedule.Next(schedule.Next(lastSyncTime))`; for a non-scheduled
trigger, or an unset last sync time, it returns false without error. -/
theorem missedDeadline_spec (p : CronParser) (now : Int) (m : Machine)
    (sched : Schedule) (lst : Int) :
    (m.tt = .scheduleTrigger → p m.cs = some sched →
      m.lastSyncTime = some lst →
      missedDeadline p now m =
        .ok (decide (sched.next (sched.next lst) < now))) ∧
    (m.tt ≠ .scheduleTrigger → missedDeadline p now m = .ok false) ∧
    (m.tt = .scheduleTrigger → m.lastSyncTime = none →
      missedDeadline p now m = .ok false) := by
  obtain ⟨tt, mt, lmt, cs, lsst, mlst, nst, oos, cond, state⟩ := m
  refine ⟨?_, ?_, ?_⟩
  · intro htt hp hlst
    simp only at htt hp hlst
    subst htt
    simp only [missedDeadline, hlst, hp]
  · intro htt
    simp only at htt
    cases tt with
    | scheduleTrigger => exact absurd rfl htt
    | noTrigger => rfl
    | manualTrigger => rfl
  · intro htt hlst
    simp only at htt hlst
    subst htt
    simp only [missedDeadline, hlst]

/-- C2 witness: the deadline is missed on a machine whose last sync was
three ten-unit periods ago. -/
theorem missedDeadline_spec_witness :
    missedDeadline pWitness 100 mLate = .ok true := by
  have h := (missedDeadline_spec pWitness 100 mLate tenSched 69).1 rfl rfl rfl
  rw [h]
  rfl


/-- C5: with an unparseable cron spec and a scheduled trigger, the first
`run` from `Initial` still succeeds and moves to `Synchronizing` (the
cron spec is not consulted on the initial leg), while any later `run`
returns the parse error with the condition `False/Error` and the state
unchanged. -/
theorem run_invalid_cron (p : CronParser) (t t2 : Tick) (mt lmt cs : String)
    (m : Machine) (_hcs : p cs = none) (hstate : m.state ≠ .initialState)
    (hm : m.tt = .scheduleTrigger) (hmcs : p m.cs = none) :
    ((run p t (initialMachine .scheduleTrigger mt lmt cs)).1.state =
        .synchronizingState ∧
      (run p t (initialMachine .scheduleTrigger mt lmt cs)).2 = none) ∧
    ((run p t2 m).2 = some "invalid cronspec" ∧
      condStatusTrue (run p t2 m).1 = false ∧
      condReasonIs (run p t2 m).1 .reasonError = true ∧
      (run p t2 m).1.state = m.state) := by
  obtain ⟨tt0, mt0, lmt0, cs0, lsst, lst, nst, oos, cond, state⟩ := m
  simp only at hm hmcs hstate
  subst hm
  constructor
  · exact ⟨rfl, rfl⟩
  · cases state with
    | initialState => exact absurd rfl hstate
    | synchronizingState =>
      simp [run, hmcs, condStatusTrue, condReasonIs]
    | cleaningUpState =>
      simp [run, hmcs, condStatusTrue, condReasonIs]

/-- C5 witness: the two legs at a concrete parser and machine. -/
theorem run_invalid_cron_witness :
    pWitness "invalid" = none ∧
    (((run pWitness (tickComplete 1)
          (initialMachine .scheduleTrigger "" "" "invalid")).1.state =
        .synchronizingState ∧
      (run pWitness (tickComplete 1)
          (initialMachine .scheduleTrigger "" "" "invalid")).2 = none) ∧
     ((run pWitness (tickComplete 2) mBadCron).2 = some "invalid cronspec" ∧
      condStatusTrue (run pWitness (tickComplete 2) mBadCron).1 = false ∧
      condReasonIs (run pWitness (tickComplete 2) mBadCron).1 .reasonError =
        true ∧
      (run pWitness (tickComplete 2) mBadCron).1.state = mBadCron.state)) :=
  ⟨rfl, run_invalid_cron pWitness (tickComplete 1) (tickComplete 2) "" ""
    "invalid" mBadCron rfl (by decide) rfl rfl⟩

/-- C6: on a tick where a mover hook returns an error (and the trigger
policy itself is not failing to parse), `run` publishes `False/Error`,
returns that same error, and leaves the logical state unchanged. -/
theorem run_mover_error (p : CronParser) (t : Tick) (m : Machine) (e : String)
    (hg : m.tt = .scheduleTrigger → (p m.cs).isSome = true) :
    (m.state = .synchronizingState → t.syncResult.err = some e →
      (run p t m).2 = some e ∧ condStatusTrue (run p t m).1 = false ∧
      condReasonIs (run p t m).1 .reasonError = true ∧
      (run p t m).1.state = .synchronizingState) ∧
    (m.state = .cleaningUpState → t.cleanupResult.err = some e →
      (run p t m).2 = some e ∧ condStatusTrue (run p t m).1 = false ∧
      condReasonIs (run p t m).1 .reasonError = true ∧
      (run p t m).1.state = .cleaningUpState) := by
  obtain ⟨tt, mt, lmt, cs, lsst, lst, nst, oos, cond, state⟩ := m
  obtain ⟨now, ⟨ss, se⟩, ⟨cst, ce⟩⟩ := t
  simp only at hg
  constructor
  · intro hst herr
    simp only at hst herr
    subst hst
    subst herr
    cases tt with
    | noTrigger =>
      simp [run, runStep, missedDeadline, condStatusTrue, condReasonIs]
    | manualTrigger =>
      simp [run, runStep, missedDeadline, condStatusTrue, condReasonIs]
    | scheduleTrigger =>
      obtain ⟨sched, hsched⟩ := Option.isSome_iff_exists.mp (hg rfl)
      cases lst <;>
        simp [run, runStep, missedDeadline, hsched, condStatusTrue,
          condReasonIs]
  · intro hst herr
    simp only at hst herr
    subst hst
    subst herr
    cases tt with
    | noTrigger =>
      simp [run, runStep, missedDeadline, condStatusTrue, condReasonIs]
    | manualTrigger =>
      simp [run, runStep, missedDeadline, condStatusTrue, condReasonIs]
    | scheduleTrigger =>
      obtain ⟨sched, hsched⟩ := Option.isSome_iff_exists.mp (hg rfl)
      cases lst <;>
        simp [run, runStep, missedDeadline, hsched, condStatusTrue,
          condReasonIs]

/-- C6 witness: a sync error on a continuous-trigger machine in flight. -/
theorem run_mover_error_witness :
    (mSyncNT.tt = .scheduleTrigger → (pWitness mSyncNT.cs).isSome = true) ∧
    ((mSyncNT.state = .synchronizingState →
      (tickSyncError 2).syncResult.err = some "sync error" →
      (run pWitness (tickSyncError 2) mSyncNT).2 = some "sync error" ∧
      condStatusTrue (run pWitness (tickSyncError 2) mSyncNT).1 = false ∧
      condReasonIs (run pWitness (tickSyncError 2) mSyncNT).1 .reasonError =
        true ∧
      (run pWitness (tickSyncError 2) mSyncNT).1.state =
        .synchronizingState) ∧
     (mSyncNT.state = .cleaningUpState →
      (tickSyncError 2).cleanupResult.err = some "sync error" →
      (run pWitness (tickSyncError 2) mSyncNT).2 = some "sync error" ∧
      condStatusTrue (run pWitness (tickSyncError 2) mSyncNT).1 = false ∧
      condReasonIs (run pWitness (tickSyncError 2) mSyncNT).1 .reasonError =
        true ∧
      (run pWitness (tickSyncError 2) mSyncNT).1.state = .cleaningUpState)) :=
  ⟨(fun h => nomatch h),
   run_mover_error pWitness (tickSyncError 2) mSyncNT "sync error"
     (fun h => nomatch h)⟩


/-- `run` changes the last-sync-time only on the
`Synchronizing → CleaningUp` leg, where it sets it to the tick time. -/
theorem run_lst_cases (p : CronParser) (t : Tick) (m : Machine) :
    (run p t m).1.lastSyncTime = m.lastSyncTime ∨
    (m.state = .synchronizingState ∧
      (run p t m).1.state = .cleaningUpState ∧
      (run p t m).1.lastSyncTime = some t.now) := by
  obtain ⟨tt, mt, lmt, cs, lsst, lst, nst, oos, cond, state⟩ := m
  obtain ⟨now, ⟨ss, se⟩, ⟨cst, ce⟩⟩ := t
  cases state
  case initialState => left; rfl
  all_goals
    simp only [run, runStep, transitionToSynchronizing, transitionToCleaningUp,
      nextDeadline, missedDeadline, shouldStartCycle, reasonForWaiting]
    repeat' split
  all_goals
    first
      | (left; rfl)
      | (right; refine ⟨?_, ?_, ?_⟩ <;> first | rfl | trivial)


/-- After any `run` step the machine is never in `Initial`; the
condition is True only with reason Syncing and only in `Synchronizing`;
in `Synchronizing` the condition is True or carries reason Error; in
`CleaningUp` it is False. -/
theorem run_condState (p : CronParser) (t : Tick) (m : Machine) :
    ((run p t m).1.state ≠ .initialState) ∧
    (condStatusTrue (run p t m).1 = true →
      (run p t m).1.state = .synchronizingState ∧
      condReasonIs (run p t m).1 .reasonSync = true) ∧
    ((run p t m).1.state = .synchronizingState →
      condStatusTrue (run p t m).1 = true ∨
      condReasonIs (run p t m).1 .reasonError = true) ∧
    ((run p t m).1.state = .cleaningUpState →
      condStatusTrue (run p t m).1 = false) := by
  obtain ⟨tt, mt, lmt, cs, lsst, lst, nst, oos, cond, state⟩ := m
  obtain ⟨now, ⟨ss, se⟩, ⟨cst, ce⟩⟩ := t
  cases state
  all_goals
    simp only [run, runStep, transitionToSynchronizing, transitionToCleaningUp,
      nextDeadline, missedDeadline, shouldStartCycle, reasonForWaiting]
    repeat' split
  all_goals
    simp [condStatusTrue, condReasonIs]

/-- C3: completing a sync cycle sets the last-sync-time to the tick
time, clears the out-of-sync flag and moves to `CleaningUp`; the
last-sync-time changes on no other leg, and never decreases when tick
times do not go backwards. -/
theorem run_sync_complete (p : CronParser) (t : Tick) (m m2 : Machine)
    (t2 : Tick) (a b : Int)
    (hstate : m.state = .synchronizingState)
    (hres : t.syncResult = ⟨.complete, none⟩)
    (hg : m.tt = .scheduleTrigger → (p m.cs).isSome = true) :
    ((run p t m).1.lastSyncTime = some t.now ∧
      (run p t m).1.oosync = false ∧
      (run p t m).1.state = .cleaningUpState) ∧
    ((run p t2 m2).1.lastSyncTime ≠ m2.lastSyncTime →
      m2.state = .synchronizingState ∧
      (run p t2 m2).1.state = .cleaningUpState ∧
      (run p t2 m2).1.lastSyncTime = some t2.now) ∧
    (m2.lastSyncTime = some a → a ≤ t2.now →
      (run p t2 m2).1.lastSyncTime = some b → a ≤ b) := by
  refine ⟨?_, ?_, ?_⟩
  · obtain ⟨tt, mt, lmt, cs, lsst, lst, nst, oos, cond, state⟩ := m
    obtain ⟨now, ⟨ss, se⟩, ⟨cst, ce⟩⟩ := t
    simp only at hstate hg hres
    subst hstate
    injection hres with h1 h2
    try simp only at h1 h2
    subst h1
    subst h2
    cases tt with
    | noTrigger =>
      simp [run, runStep, transitionToCleaningUp, nextDeadline, missedDeadline]
    | manualTrigger =>
      simp [run, runStep, transitionToCleaningUp, nextDeadline, missedDeadline]
    | scheduleTrigger =>
      obtain ⟨sched, hsched⟩ := Option.isSome_iff_exists.mp (hg rfl)
      have hgt1 := sched.next_gt now
      have hgt2 := sched.next_gt (sched.next now)
      simp [run, runStep, transitionToCleaningUp, nextDeadline, missedDeadline,
        hsched, decide_eq_false_iff_not]
      omega
  · intro hne
    rcases run_lst_cases p t2 m2 with hl | ⟨h1, h2, h3⟩
    · exact absurd hl hne
    · exact ⟨h1, h2, h3⟩
  · intro ha hle hb
    rcases run_lst_cases p t2 m2 with hl | ⟨h1, h2, h3⟩
    · rw [hl, ha, Option.some_inj] at hb
      omega
    · rw [h3, Option.some_inj] at hb
      omega

/-- C3 witness: a continuous-trigger machine completing its sync. -/
theorem run_sync_complete_witness :
    (mSyncNT.state = .synchronizingState ∧
      (tickComplete 5).syncResult = ⟨.complete, none⟩) ∧
    (((run pWitness (tickComplete 5) mSyncNT).1.lastSyncTime = some 5 ∧
      (run pWitness (tickComplete 5) mSyncNT).1.oosync = false ∧
      (run pWitness (tickComplete 5) mSyncNT).1.state = .cleaningUpState) ∧
     ((run pWitness (tickComplete 5) mSyncNT).1.lastSyncTime ≠
        mSyncNT.lastSyncTime →
      mSyncNT.state = .synchronizingState ∧
      (run pWitness (tickComplete 5) mSyncNT).1.state = .cleaningUpState ∧
      (run pWitness (tickComplete 5) mSyncNT).1.lastSyncTime = some 5) ∧
     (mSyncNT.lastSyncTime = some 3 → 3 ≤ (tickComplete 5).now →
      (run pWitness (tickComplete 5) mSyncNT).1.lastSyncTime = some 5 →
        (3 : Int) ≤ 5)) :=
  ⟨⟨rfl, rfl⟩,
   run_sync_complete pWitness (tickComplete 5) mSyncNT mSyncNT
     (tickComplete 5) 3 5 rfl rfl (fun h => nomatch h)⟩

/-- C4: with a manual trigger, `shouldStartCycle` is true exactly when
the token differs from the last observed one and is non-empty; from
`CleaningUp` with cleanup complete, `run` moves to `Synchronizing`
exactly under that gate, and with equal tokens it stays in `CleaningUp`
publishing `False/Manual`. -/
theorem manual_trigger_gate (p : CronParser) (t : Tick) (m : Machine)
    (hman : m.tt = .manualTrigger)
    (hstate : m.state = .cleaningUpState)
    (hres : t.cleanupResult = ⟨.complete, none⟩) :
    shouldStartCycle p t.now m = .ok (decide (m.mt ≠ m.lmt ∧ m.mt ≠ "")) ∧
    ((run p t m).1.state = .synchronizingState ↔
      (m.mt ≠ m.lmt ∧ m.mt ≠ "")) ∧
    (m.mt = m.lmt →
      ((run p t m).1.state = .cleaningUpState ∧
       condStatusTrue (run p t m).1 = false ∧
       condReasonIs (run p t m).1 .reasonManual = true)) := by
  obtain ⟨tt, mt, lmt, cs, lsst, lst, nst, oos, cond, state⟩ := m
  obtain ⟨now, ⟨ss, se⟩, ⟨cst, ce⟩⟩ := t
  simp only at hman hstate hres
  subst hman
  subst hstate
  injection hres with h1 h2
  try simp only at h1 h2
  subst h1
  subst h2
  refine ⟨rfl, ?_, ?_⟩
  · by_cases hgate : (mt ≠ lmt ∧ mt ≠ "")
    · simp [run, runStep, shouldStartCycle, transitionToSynchronizing,
        missedDeadline, hgate]
    · simp [run, runStep, shouldStartCycle, reasonForWaiting,
        missedDeadline, hgate]
  · intro heq
    simp only at heq
    subst heq
    simp [run, runStep, shouldStartCycle, reasonForWaiting, missedDeadline,
      condStatusTrue, condReasonIs]

/-- C4 witness: a manual machine waiting with equal tokens. -/
theorem manual_trigger_gate_witness :
    (mManualWait.tt = .manualTrigger ∧
     mManualWait.state = .cleaningUpState ∧
     (tickComplete 11).cleanupResult = ⟨.complete, none⟩) ∧
    (shouldStartCycle pWitness (tickComplete 11).now mManualWait =
      .ok (decide (mManualWait.mt ≠ mManualWait.lmt ∧ mManualWait.mt ≠ "")) ∧
     ((run pWitness (tickComplete 11) mManualWait).1.state =
        .synchronizingState ↔
      (mManualWait.mt ≠ mManualWait.lmt ∧ mManualWait.mt ≠ "")) ∧
     (mManualWait.mt = mManualWait.lmt →
      ((run pWitness (tickComplete 11) mManualWait).1.state =
          .cleaningUpState ∧
       condStatusTrue (run pWitness (tickComplete 11) mManualWait).1 =
         false ∧
       condReasonIs (run pWitness (tickComplete 11) mManualWait).1
         .reasonManual = true))) :=
  ⟨⟨rfl, rfl, rfl⟩,
   manual_trigger_gate pWitness (tickComplete 11) mManualWait rfl rfl rfl⟩


/-- C1 counterexample: a reachable state (continuous trigger, one
in-progress tick, then a tick whose sync hook errors while the cycle is
in flight) whose logical state is `Synchronizing` while the
`Synchronizing` condition is False. -/
theorem sync_condition_iff_counterexample :
    Reachable pWitness machineC1 ∧
    machineC1.state = .synchronizingState ∧
    condStatusTrue machineC1 = false :=
  ⟨Reachable.step mRun1 (tickSyncError 2)
     (Reachable.step (initialMachine .noTrigger "" "" "") (tickInProgress 1)
       (Reachable.init .noTrigger "" "" "")),
   by decide, by decide⟩

/-- C1 (amended): in every reachable state, a True condition implies the
`Synchronizing` state (with reason Syncing); in the `Synchronizing`
state the condition is True unless an error was reported, in which case
it carries reason Error; in `CleaningUp` the condition is False. -/
theorem sync_condition_invariant (p : CronParser) (m : Machine)
    (h : Reachable p m) :
    (condStatusTrue m = true →
      m.state = .synchronizingState ∧ condReasonIs m .reasonSync = true) ∧
    (m.state = .synchronizingState →
      condStatusTrue m = true ∨ condReasonIs m .reasonError = true) ∧
    (m.state = .cleaningUpState → condStatusTrue m = false) := by
  induction h with
  | init tt mt lmt cs => simp [initialMachine, condStatusTrue, condReasonIs]
  | step m0 t h0 ih =>
    have hc := run_condState p t m0
    exact ⟨hc.2.1, hc.2.2.1, hc.2.2.2⟩

/-- C1 witness: the invariant at a machine one tick from fresh. -/
theorem sync_condition_invariant_witness :
    Reachable pWitness mRun1 ∧
    ((condStatusTrue mRun1 = true →
      mRun1.state = .synchronizingState ∧
      condReasonIs mRun1 .reasonSync = true) ∧
     (mRun1.state = .synchronizingState →
      condStatusTrue mRun1 = true ∨ condReasonIs mRun1 .reasonError = true) ∧
     (mRun1.state = .cleaningUpState → condStatusTrue mRun1 = false)) :=
  ⟨Reachable.step (initialMachine .noTrigger "" "" "") (tickInProgress 1)
     (Reachable.init .noTrigger "" "" ""),
   sync_condition_invariant pWitness mRun1
     (Reachable.step (initialMachine .noTrigger "" "" "") (tickInProgress 1)
       (Reachable.init .noTrigger "" "" ""))⟩


/-- C7: whenever a `run` call performs no logical transition (its state
is unchanged — no mover progress or external change warranted one), a
second call with the same tick reproduces the machine and the returned
error exactly. -/
theorem run_idempotent (p : CronParser) (t : Tick) (m : Machine)
    (h : (run p t m).1.state = m.state) :
    run p t (run p t m).1 = run p t m := by
  obtain ⟨tt, mt, lmt, cs, lsst, lst, nst, oos, cond, state⟩ := m
  obtain ⟨now, ⟨ss, se⟩, ⟨cst, ce⟩⟩ := t
  cases state
  case initialState =>
    exfalso
    revert h
    simp [run, runStep, transitionToSynchronizing]
  case synchronizingState =>
    by_cases hguard : (tt = .scheduleTrigger ∧ (p cs).isNone = true)
    · obtain ⟨htt, hnone⟩ := hguard
      subst htt
      have hpc : p cs = none := Option.isNone_iff_eq_none.mp hnone
      simp [run, hpc]
    · cases tt with
      | noTrigger =>
        cases se with
        | some e => simp [run, runStep, missedDeadline]
        | none =>
          cases ss with
          | inProgress => simp [run, runStep, missedDeadline]
          | complete =>
            exfalso
            revert h
            simp [run, runStep, missedDeadline, transitionToCleaningUp,
              nextDeadline]
      | manualTrigger =>
        cases se with
        | some e => simp [run, runStep, missedDeadline]
        | none =>
          cases ss with
          | inProgress => simp [run, runStep, missedDeadline]
          | complete =>
            exfalso
            revert h
            simp [run, runStep, missedDeadline, transitionToCleaningUp,
              nextDeadline]
      | scheduleTrigger =>
        rcases hpc : p cs with _ | sched
        · exact absurd ⟨rfl, by simp [hpc]⟩ hguard
        · cases se with
          | some e => cases lst <;> simp [run, runStep, missedDeadline, hpc]
          | none =>
            cases ss with
            | inProgress => cases lst <;> simp [run, runStep, missedDeadline, hpc]
            | complete =>
              exfalso
              revert h
              cases lst <;>
                simp [run, runStep, missedDeadline, transitionToCleaningUp,
                  nextDeadline, hpc]
  case cleaningUpState =>
    by_cases hguard : (tt = .scheduleTrigger ∧ (p cs).isNone = true)
    · obtain ⟨htt, hnone⟩ := hguard
      subst htt
      have hpc : p cs = none := Option.isNone_iff_eq_none.mp hnone
      simp [run, hpc]
    · cases tt with
      | noTrigger =>
        cases ce with
        | some e => simp [run, runStep, missedDeadline]
        | none =>
          cases cst with
          | inProgress => simp [run, runStep, missedDeadline]
          | complete =>
            exfalso
            revert h
            simp [run, runStep, missedDeadline, shouldStartCycle,
              transitionToSynchronizing]
      | manualTrigger =>
        cases ce with
        | some e => simp [run, runStep, missedDeadline]
        | none =>
          cases cst with
          | inProgress => simp [run, runStep, missedDeadline]
          | complete =>
            by_cases hgate : (mt ≠ lmt ∧ mt ≠ "")
            · exfalso
              revert h
              simp [run, runStep, missedDeadline, shouldStartCycle,
                transitionToSynchronizing, hgate]
            · simp [run, runStep, missedDeadline, shouldStartCycle,
                reasonForWaiting, hgate]
      | scheduleTrigger =>
        rcases hpc : p cs with _ | sched
        · exact absurd ⟨rfl, by simp [hpc]⟩ hguard
        · cases ce with
          | some e => cases lst <;> simp [run, runStep, missedDeadline, hpc]
          | none =>
            cases cst with
            | inProgress =>
              cases lst <;> simp [run, runStep, missedDeadline, hpc]
            | complete =>
              cases lst with
              | none =>
                have hgt := sched.next_gt now
                simp [run, runStep, missedDeadline, shouldStartCycle,
                  reasonForWaiting, hpc,
                  show ¬(sched.next now ≤ now) from by omega]
              | some l =>
                by_cases hgate : (sched.next l ≤ now)
                · exfalso
                  revert h
                  simp [run, runStep, missedDeadline, shouldStartCycle,
                    transitionToSynchronizing, hpc, hgate]
                · simp [run, runStep, missedDeadline, shouldStartCycle,
                    reasonForWaiting, hpc, hgate]


/-- C7 witness: a manual-trigger machine waiting in `CleaningUp` with
equal tokens; the tick warrants no transition and `run` is idempotent. -/
theorem run_idempotent_witness :
    (run pWitness (tickComplete 11) mManualWait).1.state =
      mManualWait.state ∧
    run pWitness (tickComplete 11)
        (run pWitness (tickComplete 11) mManualWait).1 =
      run pWitness (tickComplete 11) mManualWait :=
  ⟨by decide,
   run_idempotent pWitness (tickComplete 11) mManualWait (by decide)⟩

end VolSync
